import Mathlib

/-!
# Verification of the gym-chatbot backend core

Shallow embedding of the conversation-and-citation consistency layer of
`src/backend/main.py` and the guest-session logic of `src/backend/auth.py`:

* `format_source_uri`, `detect_language`, `get_conversation_language`
  (pure text functions, embedded over `List Char` so that character-level
  operations of the Python source — `split`, `rsplit`, `replace`,
  substring containment — are modelled exactly);
* the citation registry built inside `generate_response_with_context_async`
  (`buildUniqueCitations`, `uriNumberD`, `buildDocGroups`,
  `formattedCitations`);
* the SQLite-backed conversation store (`get_chat_history_async`,
  `save_chat_async`, `create_conversation_async`,
  `update_conversation_title_async`, `delete_conversation_async`) as pure
  functions over an explicit `DB` state; raising `HTTPException(404)` is
  modelled as `Except.error DbError.notFound` (the connection is rolled
  back, so an error leaves the state unchanged);
* the guest-session table (in-process dictionary and the durable
  `guest_sessions` SQL table) with an explicit clock parameter;
* the `/chat` request orchestration (`chat_endpoint`), with the external
  Bedrock retrieval and generation calls supplied as oracle parameters.

Timestamps are modelled as `Nat` (a logical clock): the source stores
`datetime.now().isoformat()` strings whose only uses in the verified
properties are equality, ordering and interpolation into a title.
-/

/-! ## String model

Python strings are modelled as `List Char`.  `splitOnChar` mirrors
`str.split(sep)` for a one-character separator: it never returns an empty
list, and splitting the empty string yields `[[]]` (Python: `[''']`). -/

def splitOnChar (c : Char) : List Char → List (List Char)
  | [] => [[]]
  | x :: xs =>
    match splitOnChar c xs with
    | [] => [[x]]
    | h :: t => if x = c then [] :: h :: t else (x :: h) :: t

/-- `filename.rsplit('.', 1)[0]` guarded by `if '.' in filename`: drop the
last `.` and everything after it, if any dot is present. -/
def stripExtOnce (filename : List Char) : List Char :=
  if filename.contains '.' then ((filename.reverse.dropWhile (· ≠ '.')).drop 1).reverse
  else filename

/-- `.replace('_', ' ').replace('-', ' ')` on one-character patterns. -/
def underscoreHyphenToSpace (l : List Char) : List Char :=
  l.map (fun c => if c = '_' then ' ' else if c = '-' then ' ' else c)

/-- Embedding of `format_source_uri` (src/backend/main.py lines 471-509):
turns a document locator (S3 URI, web URL, filesystem path) into a short
display label.  Branches mirror the Python source in order:
empty input, `s3://` prefix, `http` prefix, path separators, otherwise. -/
def format_source_uri (uri : List Char) : List Char :=
  if uri = [] then "Unknown source".data
  else if "s3://".data.isPrefixOf uri then
    if (splitOnChar '/' uri).length > 3 then
      underscoreHyphenToSpace (stripExtOnce ((splitOnChar '/' uri).getLastD []))
    else
      if (splitOnChar '/' uri).getLastD [] = [] then "S3 Document".data
      else (splitOnChar '/' uri).getLastD []
  else if "http".data.isPrefixOf uri then
    if (splitOnChar '/' uri).length > 2 then
      if (splitOnChar '/' uri).getLastD [] = [] then (splitOnChar '/' uri).getD 2 []
      else (splitOnChar '/' uri).getLastD []
    else uri
  else if uri.contains '/' || uri.contains '\\' then
    underscoreHyphenToSpace (stripExtOnce
      (if uri.contains '/' then (splitOnChar '/' uri).getLastD []
       else (splitOnChar '\\' uri).getLastD []))
  else uri

example : format_source_uri "s3://bucket/docs/Program_3.md".data = "Program 3".data := by decide
example : format_source_uri "".data = "Unknown source".data := by decide
example : format_source_uri "http://".data = [] := by decide
example : format_source_uri "a/x.t".data = "x".data := by decide

/-! ## Language detection (src/backend/main.py lines 511-589) -/

/-- Substring containment, Python's `needle in haystack`: the empty needle
is contained in everything. -/
def containsSub (needle : List Char) : List Char → Bool
  | [] => needle.isPrefixOf []
  | c :: rest => needle.isPrefixOf (c :: rest) || containsSub needle rest

/-- `str.lower()` restricted to the alphabets the detector uses: ASCII
letters plus the upper-case Spanish diacritics. -/
def pyLowerChar (c : Char) : Char :=
  if c = 'Á' then 'á' else if c = 'É' then 'é' else if c = 'Í' then 'í'
  else if c = 'Ó' then 'ó' else if c = 'Ú' then 'ú' else if c = 'Ü' then 'ü'
  else if c = 'Ñ' then 'ñ' else c.toLower

def pyLower (l : List Char) : List Char := l.map pyLowerChar

/-- The `spanish_words` list of `detect_language`, verbatim (including the
repeated `'bajo'` entry of the source). -/
def spanish_words : List (List Char) :=
  (["qué", "cómo", "dónde", "cuándo", "por qué", "quién", "cuál", "cuáles",
    "este", "esta", "estos", "estas", "ese", "esa", "esos", "esas", "aquel",
    "aquella", "aquellos", "aquellas", "con", "para", "por", "sin", "sobre",
    "entre", "hacia", "desde", "hasta", "durante", "según", "mediante",
    "contra", "bajo", "tras", "ante", "bajo", "cabe", "so", "través",
    "versus", "vía", "ejercicio", "rutina", "series", "repeticiones", "peso",
    "fuerza", "musculo", "gimnasio", "necesito", "quiero", "debo", "puedo",
    "debería"] : List String).map String.data

/-- The `spanish_chars` list of `detect_language`, verbatim. -/
def spanish_chars : List Char := ['ñ', 'á', 'é', 'í', 'ó', 'ú', 'ü', '¿', '¡']

/-- The `english_words` list of `detect_language`, verbatim. -/
def english_words : List (List Char) :=
  (["what", "how", "where", "when", "why", "who", "which", "this", "that",
    "these", "those", "with", "for", "by", "without", "over", "between",
    "toward", "from", "until", "during", "according", "through", "against",
    "under", "exercise", "training", "routine", "sets", "repetitions",
    "weight", "strength", "muscle", "gym", "need", "want", "should", "can",
    "could"] : List String).map String.data

/-- Embedding of `detect_language` (src/backend/main.py lines 511-547):
lower-case the text, tally Spanish/English indicator words by substring
containment plus doubled Spanish-only characters, return `"es"` whenever
the Spanish score is positive, else `"en"`. -/
def detect_language (text : List Char) : String :=
  let text_lower := pyLower text
  let spanish_word_count := spanish_words.countP (fun w => containsSub w text_lower)
  let spanish_char_count := spanish_chars.countP (fun c => text_lower.contains c)
  let english_word_count := english_words.countP (fun w => containsSub w text_lower)
  let spanish_score := spanish_word_count + spanish_char_count * 2
  let english_score := english_word_count
  if spanish_score > 0 then "es"
  else if english_score > 0 then "en"
  else "en"

example : detect_language "¿Cuántas series debo hacer?".data = "es" := by decide
example : detect_language "What exercise should I do".data = "en" := by decide
example : detect_language "zzz".data = "en" := by decide
-- substring false positive acknowledged by the spec: "por" inside "important"
example : detect_language "important".data = "es" := by decide

/-- One persisted message row as returned to callers of
`get_chat_history_async` (a dict with `user_message`, `bot_response`,
`citations`, `timestamp`).  Citations are kept structured; the JSON
serialisation at the SQL boundary round-trips and is abstracted away. -/
structure HistoryItem where
  user_message : String
  bot_response : String
  citations : List String
  timestamp : Nat
deriving DecidableEq, Repr

/-- Embedding of `get_conversation_language` (src/backend/main.py lines
549-589): prefer the detected language of the current message; only when
that is neither `"es"` nor `"en"` fall back to a majority vote over the
last three history turns (skipping falsy `user_message` fields, ties to
English). -/
def get_conversation_language (user_message : List Char) (chat_history : List HistoryItem) : String :=
  let current_language := detect_language user_message
  if current_language = "es" then "es"
  else if current_language = "en" then "en"
  else
    let recent_messages :=
      if chat_history.length ≥ 3 then chat_history.drop (chat_history.length - 3)
      else chat_history
    let counts := recent_messages.foldl (fun (sc : Nat × Nat) msg =>
      if msg.user_message ≠ "" then
        if detect_language msg.user_message.data = "es" then (sc.1 + 1, sc.2)
        else (sc.1, sc.2 + 1)
      else sc) (0, 0)
    if counts.1 > counts.2 then "es" else "en"

/-! ## Citation registry (src/backend/main.py lines 690-728 and 851-877)

`generate_response_with_context_async` builds an insertion-ordered dict
`unique_citations : display_name -> first uri with that name`, a dict
`uri_to_citation_number` defined only on the uris stored in
`unique_citations`, and groups the retrieved passages by their aligned
uri; the bracket number written before each passage group is
`uri_to_citation_number.get(uri, 1)`. -/

/-- `unique_citations`: fold the locators in order, recording
`(display_name, locator)` the first time a display name is seen. -/
def buildUniqueCitations (source_uris : List String) : List (List Char × String) :=
  source_uris.foldl (fun acc uri =>
    if acc.any (fun p => p.1 == format_source_uri uri.data) then acc
    else acc ++ [(format_source_uri uri.data, uri)]) []

/-- Position of a locator among the locators stored in `unique_citations`
(the domain of `uri_to_citation_number`). -/
def idxOfUri (uri : String) : List (List Char × String) → Option Nat
  | [] => none
  | p :: rest => if p.2 == uri then some 0 else (idxOfUri uri rest).map (· + 1)

/-- `uri_to_citation_number.get(uri, 1)`: 1-based citation number of a
stored locator, defaulting to 1 for locators not in the mapping. -/
def uriNumberD (uc : List (List Char × String)) (uri : String) : Nat :=
  ((idxOfUri uri uc).map (· + 1)).getD 1

/-- `doc_groups`: iterate the passages with their index-aligned locator
(`if i < len(source_uris)` is exactly the `zip` truncation) and append each
passage to its locator's group, keeping first-seen group order. -/
def buildDocGroups (docs uris : List String) : List (String × List String) :=
  (docs.zip uris).foldl (fun gs du =>
    if gs.any (fun g => g.1 == du.2) then
      gs.map (fun g => if g.1 == du.2 then (g.1, g.2 ++ [du.1]) else g)
    else gs ++ [(du.2, [du.1])]) []

/-- `enumerate(unique_citations.items(), 1)` rendered as
`f"[{i}] - {formatted_name}"`. -/
def formattedCitationsFrom (n : Nat) : List (List Char × String) → List String
  | [] => []
  | p :: rest => ("[" ++ Nat.repr n ++ "] - " ++ String.mk p.1) :: formattedCitationsFrom (n + 1) rest

/-- The citation list returned to the caller alongside the response. -/
def formattedCitations (uc : List (List Char × String)) : List String :=
  formattedCitationsFrom 1 uc

/-- Spec-side description of the registry's name order: deduplicate the
formatted display names keeping the first occurrence of each. -/
def firstSeenDedup (names : List (List Char)) : List (List Char) :=
  names.foldl (fun acc n => if acc.any (fun m => m == n) then acc else acc ++ [n]) []

example :
    formattedCitations (buildUniqueCitations
      ["s3://b/d/Doc_1.md", "s3://b/d/Doc_1.md", "s3://b/d/Doc_2.md"]) =
    ["[1] - Doc 1", "[2] - Doc 2"] := by decide

/-! ## Conversation store (src/backend/main.py lines 187-337)

The SQLite tables `conversations` and `chat_history` are modelled as
row lists kept in insertion order, with the `AUTOINCREMENT` counters made
explicit.  `HTTPException(status_code=404)` becomes
`Except.error DbError.notFound`; an error means the transaction performed
no write, so the caller's state is unchanged. -/

inductive DbError where
  | notFound
deriving DecidableEq, Repr

structure ConvRow where
  id : Nat
  user_id : String
  title : String
  created_at : Nat
  updated_at : Nat
deriving DecidableEq, Repr

structure MsgRow where
  id : Nat
  conversation_id : Nat
  user_message : String
  bot_response : String
  citations : List String
  timestamp : Nat
deriving DecidableEq, Repr

structure DB where
  conversations : List ConvRow
  chat_history : List MsgRow
  nextConvId : Nat
  nextMsgId : Nat
deriving DecidableEq, Repr

/-- Insertion step of a stable insertion sort: place `a` before the first
element that does not precede it under `le`. -/
def insertOrd (le : α → α → Bool) (a : α) : List α → List α
  | [] => [a]
  | x :: xs => if le a x then a :: x :: xs else x :: insertOrd le a xs

/-- Insertion sort used to model SQL `ORDER BY` (the verified queries sort
by keys that are distinct on the rows involved, so the order is fully
determined). -/
def sortOrd (le : α → α → Bool) (l : List α) : List α := l.foldr (insertOrd le) []

/-- `ORDER BY id DESC` on message rows. -/
def msgDescIdLe (a b : MsgRow) : Bool := b.id ≤ a.id

/-- `ORDER BY c.updated_at DESC, ch.id DESC` on joined
(message, conversation-updated_at) rows. -/
def joinDescLe (a b : MsgRow × Nat) : Bool :=
  b.2 < a.2 || (b.2 == a.2 && b.1.id ≤ a.1.id)

/-- Python truthiness of the optional `conversation_id` argument:
`None` and `0` select the most-recent-conversation branch. -/
def cidTruthy : Option Nat → Bool
  | none => false
  | some n => n != 0

/-- `SELECT id FROM conversations WHERE id = ? AND user_id = ?` produced a
row: the ownership check run by every store operation. -/
def conversationOwned (db : DB) (cid : Nat) (uid : String) : Bool :=
  db.conversations.any (fun c => c.id == cid && c.user_id == uid)

def toHistoryItem (m : MsgRow) : HistoryItem :=
  ⟨m.user_message, m.bot_response, m.citations, m.timestamp⟩

/-- The `JOIN conversations c ON ch.conversation_id = c.id WHERE
c.user_id = ?` rows, each message paired with its conversation's
`updated_at` (conversation ids are a primary key, hence `find?`). -/
def recentRows (db : DB) (uid : String) : List (MsgRow × Nat) :=
  db.chat_history.filterMap (fun m =>
    match db.conversations.find? (fun c => c.id == m.conversation_id && c.user_id == uid) with
    | some c => some (m, c.updated_at)
    | none => none)

/-- Embedding of `get_chat_history_async` (lines 187-231).  With a truthy
conversation id: verify ownership (404 otherwise) and return that
conversation's rows ordered `id DESC`, limited.  Otherwise: rows of the
user's conversations ordered `updated_at DESC, id DESC`, limited. -/
def get_chat_history_async (db : DB) (user_id : String) (conversation_id : Option Nat)
    (limit : Nat) : Except DbError (List HistoryItem) :=
  if cidTruthy conversation_id then
    let cid := conversation_id.getD 0
    if conversationOwned db cid user_id then
      .ok (((sortOrd msgDescIdLe (db.chat_history.filter (fun m => m.conversation_id == cid))).take limit).map toHistoryItem)
    else .error .notFound
  else
    .ok ((((sortOrd joinDescLe (recentRows db user_id)).map Prod.fst).take limit).map toHistoryItem)

/-- Embedding of `save_chat_async` (lines 233-258): verify ownership (404
otherwise), insert the message row, bump the conversation's `updated_at`;
both writes commit together. -/
def save_chat_async (db : DB) (user_id : String) (conversation_id : Nat)
    (user_message bot_response : String) (citations : List String) (now : Nat) :
    Except DbError DB :=
  if conversationOwned db conversation_id user_id then
    .ok { db with
      chat_history := db.chat_history ++
        [⟨db.nextMsgId, conversation_id, user_message, bot_response, citations, now⟩],
      nextMsgId := db.nextMsgId + 1,
      conversations := db.conversations.map (fun c =>
        if c.id == conversation_id && c.user_id == user_id then { c with updated_at := now } else c) }
  else .error .notFound

/-- Embedding of `create_conversation_async` (lines 260-276): a falsy
title (absent or empty) defaults to a timestamped placeholder; the row is
created with `created_at = updated_at = now` and the fresh id returned. -/
def create_conversation_async (db : DB) (user_id : String) (title : Option String)
    (now : Nat) : Nat × DB :=
  let t := match title with
    | none => "Conversation " ++ Nat.repr now
    | some s => if s = "" then "Conversation " ++ Nat.repr now else s
  (db.nextConvId,
   { db with
     conversations := db.conversations ++ [⟨db.nextConvId, user_id, t, now, now⟩],
     nextConvId := db.nextConvId + 1 })

/-- Embedding of `update_conversation_title_async` (lines 303-319). -/
def update_conversation_title_async (db : DB) (user_id : String) (conversation_id : Nat)
    (title : String) (now : Nat) : Except DbError DB :=
  if conversationOwned db conversation_id user_id then
    .ok { db with
      conversations := db.conversations.map (fun c =>
        if c.id == conversation_id && c.user_id == user_id then
          { c with title := title, updated_at := now } else c) }
  else .error .notFound

/-- Embedding of `delete_conversation_async` (lines 321-337): verify
ownership (404 otherwise), delete the conversation's chat history, then
the conversation row; one commit. -/
def delete_conversation_async (db : DB) (user_id : String) (conversation_id : Nat) :
    Except DbError DB :=
  if conversationOwned db conversation_id user_id then
    .ok { db with
      chat_history := db.chat_history.filter (fun m => !(m.conversation_id == conversation_id)),
      conversations := db.conversations.filter (fun c =>
        !(c.id == conversation_id && c.user_id == user_id)) }
  else .error .notFound

/-- Store invariants guaranteed by the SQLite schema and the write path:
conversation ids are positive (`AUTOINCREMENT` starts at 1) and unique
(primary key), and message rows sit in the log in strictly increasing id
order (insertion order). -/
def DBWF (db : DB) : Prop :=
  (∀ c ∈ db.conversations, 0 < c.id)
  ∧ (db.conversations.map ConvRow.id).Nodup
  ∧ db.chat_history.Pairwise (fun a b => a.id < b.id)
  ∧ 0 < db.nextConvId

/-! ## Retrieval extraction (src/backend/main.py lines 399-425)

The knowledge-base call returns a list of results, each carrying a text
and an S3 locator (empty string when absent).  The extraction loop keeps
every non-empty text but appends each non-empty locator only the first
time it is seen (`seen_uris`), so the two returned lists are aligned by
index only while no locator repeats. -/

def extractRetrieval (results : List (String × String)) : List String × List String :=
  results.foldl (fun acc r =>
    if r.1 != "" then
      (acc.1 ++ [r.1],
       if r.2 != "" then (if acc.2.contains r.2 then acc.2 else acc.2 ++ [r.2]) else acc.2)
    else acc) ([], [])

example : extractRetrieval [("t1", "u"), ("t2", "u")] = (["t1", "t2"], ["u"]) := by decide

/-! ## Response generation and the /chat request
(src/backend/main.py lines 667-883 and 1006-1030)

The external Bedrock generation call is an oracle parameter
`gen : Except String String` (`.error e` models the call raising, which
the source catches at lines 879-883).  The retrieval call is an oracle
`Option (List (String × String))` at the endpoint (`none` models the call
raising, which `retrieve_from_knowledge_base_async` converts to
`(None, [])`). -/

/-- The literal degraded reply produced when the generation call raises,
in the resolved conversation language (lines 879-883). -/
def bedrockFailLiteral (lang : String) (e : String) : String :=
  if lang = "es" then "[Error: No se pudo generar respuesta desde Bedrock: " ++ e ++ "]"
  else "[Error: Could not generate response from Bedrock: " ++ e ++ "]"

/-- Embedding of `get_language_instruction` (lines 591-627): the fixed
document-structure note plus the expert-persona instruction, per
language (text verbatim from the source). -/
def get_language_instruction (language : String) : String :=
  if language = "es" then
    "\nIMPORTANTE - ESTRUCTURA DE DOCUMENTOS DE PROGRAMACIÓN:\nLos documentos de programaciones están estructurados de la siguiente manera:\n- El nombre del documento es el nombre de la programación.\n- El contenido del documento es el contenido de la programación.\n- La estructura del documento es la siguiente:\n    - La primera parte es el nombre de la programación seguido de una descripción de la programación y una guía básica de cómo usarla.\n    - La segunda parte es una guía de calentamiento y estiramiento.\n    - La tercera parte del documento es la programación en sí, con los ejercicios y las series y repeticiones. Está estructurado en tablas donde cada tabla es una semana y cada columna es un día, en el cual se detallan los ejercicios.\n    - La cuarta parte es una \"Guía de Programa\", la cual explica el código de colores que se usa en la programación.\n    - La quinta parte es una \"Guía de Volumen\". Específica por cada semana y por color el volumen de cada ejercicio. Repeticiones y sets.\n    - Existe un codigo de colores que enlaza las diferentes tablas.\n\nEres un experto en entrenamiento de fuerza y acondicionamiento físico con amplio conocimiento en programación de ejercicios, periodización, biomecánica y fisiología del ejercicio. IMPORTANTE: Usa ÚNICAMENTE la información proporcionada en los documentos de la base de conocimientos para responder. NO uses ningún conocimiento externo o general. Responde en español usando la información proporcionada arriba. Cuando hagas referencia a información de documentos específicos, cítalos por su número de origen [1], [2], etc. Proporciona consejos técnicos precisos y mantén el formato original con párrafos separados y estructura clara:"
  else
    "\nIMPORTANT - PROGRAMMING DOCUMENT STRUCTURE:\nThe programming documents are structured as follows:\n- The document name is the name of the programming.\n- The document content is the content of the programming.\n- The document structure is as follows:\n    - The first part is the name of the programming followed by a description of the programming and a basic guide on how to use it.\n    - The second part is a warm-up and stretching guide.\n    - The third part of the document is the programming itself, with the exercises and sets and repetitions. It is structured in tables where each table is a week and each column is a day, in which the exercises are detailed.\n    - The fourth part is a \"Program Guide\", which explains the color code used in the programming.\n    - The fifth part is a \"Volume Guide\". It specifies for each week and by color the volume of each exercise. Repetitions and sets.\n    - There is a color code that links the different tables.\n\nYou are an expert in strength and conditioning training with extensive knowledge in exercise programming, periodization, biomechanics, and exercise physiology. IMPORTANT: Use ONLY the information provided in the knowledge base documents to answer. DO NOT use any external or general knowledge. Please answer the following question using the information provided above. When referencing information from specific documents, cite them by their source number [1], [2], etc. Provide precise technical advice and maintain the original formatting with separate paragraphs and clear structure:"

/-- The grouped-passages section of the prompt (lines 712-716): per group,
a `[n]:` header — `n` being `uri_to_citation_number.get(uri, 1)` — followed
by the group's passage texts. -/
def contextDocsSection (uc : List (List Char × String)) (groups : List (String × List String)) : String :=
  groups.foldl (fun acc g =>
    acc ++ "[" ++ Nat.repr (uriNumberD uc g.1) ++ "]:\n"
      ++ g.2.foldl (fun a doc => a ++ doc ++ "\n\n") "") ""

/-- The source-documents block of the prompt (lines 719-729): a header and
one `[n]: display_name` line per registry entry. -/
def sourceDocsSection (uc : List (List Char × String)) (user_language : String) : String :=
  (if user_language = "es" then "Documentos fuente:\n" else "Source documents:\n")
    ++ uc.foldl (fun acc p =>
        acc ++ "[" ++ Nat.repr (uriNumberD uc p.2) ++ "]: " ++ String.mk (format_source_uri p.2.data) ++ "\n") ""
    ++ "\n"

/-- The fixed formatting instruction appended after the language
instruction (lines 735-738, text verbatim). -/
def formattingInstruction (user_language : String) : String :=
  if user_language = "es" then
    "IMPORTANTE: Al responder como experto en entrenamiento de fuerza y acondicionamiento, mantén el formato original del texto. Usa párrafos separados, listas con viñetas para ejercicios y series, y preserva la estructura de tablas de entrenamiento, rutinas y progresiones. Organiza la información de manera clara: ejercicios, series, repeticiones, descansos, intensidad y progresión. No combines todo en un solo párrafo.\n\n"
  else
    "IMPORTANT: When responding as a strength and conditioning expert, maintain the original text formatting. Use separate paragraphs, bullet points for exercises and sets, and preserve the structure of training tables, routines, and progressions. Organize information clearly: exercises, sets, repetitions, rest periods, intensity, and progression. Do not combine everything into a single paragraph.\n\n"

/-- The trailing conversation transcript (lines 746-760): header, the last
10 turns as `Usuario:`/`Asistente:` lines, and a separator. -/
def conversationContext (user_language : String) (chat_history : List HistoryItem) : String :=
  if chat_history.isEmpty then ""
  else
    (if user_language = "es" then "Historial de la conversación:\n" else "Conversation history:\n")
      ++ (if chat_history.length > 10 then chat_history.drop (chat_history.length - 10)
          else chat_history).foldl (fun acc msg =>
            acc ++ "Usuario: " ++ msg.user_message ++ "\nAsistente: " ++ msg.bot_response ++ "\n\n") ""
      ++ "---\n\n"

/-- Embedding of the prompt assembly inside
`generate_response_with_context_async` (lines 680-769): the context with
bracket-numbered passage groups, the source-document block, the language
and formatting instructions, the recent transcript, the live user message
and the final language directive. -/
def buildFullPrompt (user_language : String) (retrieved_documents : Option (List String))
    (source_uris : List String) (chat_history : List HistoryItem) (user_message : String) : String :=
  let hasDocs := match retrieved_documents with
    | some l => !l.isEmpty
    | none => false
  let context :=
    if hasDocs then
      let docs := retrieved_documents.getD []
      let uc := buildUniqueCitations source_uris
      (if user_language = "es" then "Basándote en la siguiente información:\n\n"
       else "Based on the following information:\n\n")
        ++ contextDocsSection uc (buildDocGroups docs source_uris)
        ++ (if !source_uris.isEmpty then sourceDocsSection uc user_language else "")
        ++ get_language_instruction user_language ++ "\n\n"
        ++ formattingInstruction user_language
    else
      if user_language = "es" then
        "Por favor responde la siguiente pregunta. Si no tienes información específica sobre este tema, por favor indícalo:\n\n"
      else
        "Please answer the following question. If you don't have specific information about this topic, please say so:\n\n"
  context ++ conversationContext user_language chat_history ++ user_message
    ++ (if user_language = "es" then
          "\n\nIMPORTANTE: Responde ÚNICAMENTE en español. NO uses inglés en tu respuesta."
        else
          "\n\nIMPORTANT: Respond ONLY in English. DO NOT use Spanish in your response.")

/-- Embedding of `format_response_text` (lines 629-665): re-flow the reply
line by line, preserving list-like lines, splitting overlong non-table
lines at sentence boundaries, joining with blank lines. -/
def format_response_text (response : String) : String :=
  if response = "" then response
  else
    let lines := (response.splitOn "\n").map String.trim
    let listPrefixes := ["•", "-", "*", "1)", "2)", "3)", "4)", "5)", "6)", "7)", "8)", "9)", "0)",
      "A)", "B)", "C)", "D)", "E)", "F)", "G)", "H)",
      "WEEK", "DAY", "CONDITIONING", "GUÍA", "INTENSITY", "REST",
      "Sets:", "Reps:", "Time:", "Target:"]
    let formatted_lines := lines.foldl (fun acc line =>
      if line = "" then acc
      else if listPrefixes.any (fun p => line.startsWith p) then acc ++ [line]
      else if (line.startsWith "*" || line.startsWith "_")
              && (line.endsWith "*" || line.endsWith "_") then acc ++ [line]
      else if line.length > 100 && !line.startsWith "|" then
        acc ++ ((line.splitOn ". ").map String.trim).filter (fun s => s ≠ "")
      else acc ++ [line]) []
    String.intercalate "\n\n" formatted_lines

/-- Embedding of `generate_response_with_context_async` (lines 667-883),
returning the `(bot_response, citations)` pair.  The prompt string handed
to the generator interpolates, per passage group, the bracket number
`uriNumberD (buildUniqueCitations source_uris) uri` (line 713), and the
citation list returned to the caller is
`formattedCitations (buildUniqueCitations source_uris)` (both the
in-scope path, lines 853-857, and the fallback path, lines 859-874,
compute that same mapping). -/
def generate_response_with_context (bedrock_up : Bool) (user_message : String)
    (retrieved_documents : Option (List String)) (source_uris : List String)
    (chat_history : List HistoryItem) (gen : String → Except String String) :
    String × List String :=
  if !bedrock_up then ("[Error: Bedrock client not initialized. Check server logs.]", [])
  else
    let user_language := get_conversation_language user_message.data chat_history
    let full_prompt := buildFullPrompt user_language retrieved_documents source_uris chat_history user_message
    match gen full_prompt with
    | .error e => (bedrockFailLiteral user_language e, [])
    | .ok raw =>
      let bot_response := raw.trim
      let bot_response :=
        if bot_response = "" then
          if user_language = "es" then "Lo siento, no pude generar una respuesta."
          else "Sorry, I could not generate a response."
        else bot_response
      (format_response_text bot_response, formattedCitations (buildUniqueCitations source_uris))

/-- Conversation resolution step of `chat_endpoint` (lines 1010-1014): a
falsy `conversation_id` creates a fresh conversation. -/
def resolve_conversation (db : DB) (user_id : String) (conversation_id : Option Nat)
    (now : Nat) : Nat × DB :=
  if cidTruthy conversation_id then (conversation_id.getD 0, db)
  else create_conversation_async db user_id none now

/-- Embedding of `chat_endpoint` (lines 1006-1030): resolve or create the
conversation, fetch the last 10 turns, extract the retrieval results,
generate (possibly degraded), persist the exchange, and return
`(state, response, citations, conversation_id)`. -/
def chat_endpoint (db : DB) (user_id : String) (message : String)
    (conversation_id : Option Nat) (nowCreate nowSave : Nat)
    (retrieval : Option (List (String × String))) (gen : String → Except String String)
    (bedrock_up : Bool) : Except DbError (DB × String × List String × Nat) :=
  let r := resolve_conversation db user_id conversation_id nowCreate
  match get_chat_history_async r.2 user_id (some r.1) 10 with
  | .error e => .error e
  | .ok chat_history =>
    let rd : Option (List String) × List String :=
      match retrieval with
      | none => (none, [])
      | some results =>
        let p := extractRetrieval results
        (some p.1, p.2)
    let g := generate_response_with_context bedrock_up message rd.1 rd.2 chat_history gen
    match save_chat_async r.2 user_id r.1 message g.1 g.2 nowSave with
    | .error e => .error e
    | .ok db2 => .ok (db2, g.1, g.2, r.1)

/-! ## Guest sessions (src/backend/auth.py lines 96-125 and 275-335)

Both variants take the current instant as an explicit parameter (the
source reads `datetime.utcnow()`); expiry instants are on the same
logical clock. -/

structure GuestSession where
  session_id : String
  user_id : String
  created_at : Nat
  expires_at : Nat
deriving DecidableEq, Repr

/-- The in-process `guest_sessions` dict (keys unique). -/
def lookupSession (tbl : List (String × GuestSession)) (sid : String) : Option GuestSession :=
  (tbl.find? (fun p => p.1 == sid)).map Prod.snd

/-- Embedding of `get_guest_session` (auth.py lines 112-125): a lookup
strictly after the expiry instant deletes the entry and reports absent. -/
def get_guest_session (tbl : List (String × GuestSession)) (sid : String) (now : Nat) :
    Option GuestSession × List (String × GuestSession) :=
  match lookupSession tbl sid with
  | none => (none, tbl)
  | some session =>
    if session.expires_at < now then
      (none, tbl.filter (fun p => !(p.1 == sid)))
    else (some session, tbl)

structure UserRow where
  id : String
  username : String
  is_guest : Bool
  created_at : Nat
  updated_at : Nat
deriving DecidableEq, Repr

structure GSRow where
  session_id : String
  user_id : String
  created_at : Nat
  expires_at : Nat
deriving DecidableEq, Repr

structure AuthDB where
  users : List UserRow
  guest_sessions : List GSRow
deriving DecidableEq, Repr

structure GuestInfo where
  user_id : String
  username : String
  created_at : Nat
  expires_at : Nat
deriving DecidableEq, Repr

/-- Embedding of `get_guest_session_by_code` (auth.py lines 305-335): join
the session row with its guest user (`session_id` is the primary key);
a hit strictly after the expiry instant deletes the session row and the
guest user row and reports absent. -/
def get_guest_session_by_code (adb : AuthDB) (code : String) (now : Nat) :
    Option GuestInfo × AuthDB :=
  match adb.guest_sessions.find? (fun g => g.session_id == code) with
  | none => (none, adb)
  | some g =>
    match adb.users.find? (fun u => u.id == g.user_id) with
    | none => (none, adb)
    | some u =>
      if g.expires_at < now then
        (none,
         { users := adb.users.filter (fun x => !(x.id == g.user_id)),
           guest_sessions := adb.guest_sessions.filter (fun x => !(x.session_id == code)) })
      else
        (some ⟨g.user_id, u.username, g.created_at, g.expires_at⟩, adb)

/-! ## Theorems -/

/-- Spanish score exactly as the claim words it: Spanish-list words found
as substrings plus twice the Spanish-only characters present. -/
def spanishScoreSpec (t : List Char) : Nat :=
  (spanish_words.filter (fun w => containsSub w (pyLower t))).length
    + 2 * (spanish_chars.filter (fun c => (pyLower t).contains c)).length

/-- English score as the claim words it. -/
def englishScoreSpec (t : List Char) : Nat :=
  (english_words.filter (fun w => containsSub w (pyLower t))).length

/-- C7: for every input string, `detect_language` lower-cases the text and
returns `"es"` exactly when the Spanish score (substring word hits plus
doubled Spanish-only characters) is positive — regardless of the English
score — otherwise `"en"` whether or not the English score is positive;
matching is substring containment. -/
theorem C7_detect_language_scoring (t : List Char) :
    detect_language t =
      if 0 < spanishScoreSpec t then "es"
      else if 0 < englishScoreSpec t then "en"
      else "en" := by
  simp only [detect_language, spanishScoreSpec, englishScoreSpec,
    List.countP_eq_length_filter, Nat.mul_comm, gt_iff_lt]

/-- The detector is total over {es, en}: its final default makes any other
outcome impossible. -/
theorem detect_language_total (t : List Char) :
    detect_language t = "es" ∨ detect_language t = "en" := by
  unfold detect_language
  dsimp only
  split
  · exact Or.inl rfl
  · split
    · exact Or.inr rfl
    · exact Or.inr rfl

/-- C8: the conversation-language resolver always returns the detector's
verdict on the current message (which is always `"es"` or `"en"`), so a
Spanish current message wins over any all-English history and vice versa;
the last-3-turns majority fallback is dead code. -/
theorem C8_resolver_prefers_current_message (m : List Char) (h : List HistoryItem) :
    get_conversation_language m h = detect_language m := by
  unfold get_conversation_language
  rcases detect_language_total m with hd | hd <;> simp [hd]

/-- `find?` misses every element of a list filtered by an incompatible
predicate. -/
theorem find?_filter_incompat (l : List α) (p q : α → Bool)
    (h : ∀ x, p x = true → q x = false) : (l.filter q).find? p = none := by
  induction l with
  | nil => rfl
  | cons x xs ih =>
    by_cases hq : q x = true
    · have hp : p x = false := by
        by_cases hp : p x = true
        · rw [h x hp] at hq; exact absurd hq (by simp)
        · simpa using hp
      simp [List.filter_cons, hq, List.find?_cons, hp, ih]
    · simp only [Bool.not_eq_true] at hq
      simp [List.filter_cons, hq, ih]

/-- C9: a guest-session lookup strictly after the expiry instant returns
`none` and deletes the expired record — in the in-process table the
session entry, and in the durable store both the session row and the
orphaned guest user row. -/
theorem C9_expired_guest_session_lookup
    (tbl : List (String × GuestSession)) (sid : String) (gs : GuestSession) (now1 : Nat)
    (adb : AuthDB) (code : String) (g : GSRow) (u : UserRow) (now2 : Nat)
    (h1 : lookupSession tbl sid = some gs)
    (h2 : gs.expires_at < now1)
    (h3 : adb.guest_sessions.find? (fun x => x.session_id == code) = some g)
    (h4 : adb.users.find? (fun x => x.id == g.user_id) = some u)
    (h5 : g.expires_at < now2) :
    (get_guest_session tbl sid now1).1 = none
    ∧ lookupSession (get_guest_session tbl sid now1).2 sid = none
    ∧ (get_guest_session_by_code adb code now2).1 = none
    ∧ (get_guest_session_by_code adb code now2).2.guest_sessions.find?
        (fun x => x.session_id == code) = none
    ∧ (get_guest_session_by_code adb code now2).2.users.find?
        (fun x => x.id == g.user_id) = none := by
  have hmem : get_guest_session tbl sid now1 =
      (none, tbl.filter (fun p => !(p.1 == sid))) := by
    unfold get_guest_session
    rw [h1]
    simp [h2]
  have hdur : get_guest_session_by_code adb code now2 =
      (none,
       { users := adb.users.filter (fun x => !(x.id == g.user_id)),
         guest_sessions := adb.guest_sessions.filter (fun x => !(x.session_id == code)) }) := by
    unfold get_guest_session_by_code
    rw [h3]
    dsimp only
    rw [h4]
    dsimp only
    simp [h5]
  refine ⟨by rw [hmem], ?_, by rw [hdur], ?_, ?_⟩
  · rw [hmem]
    unfold lookupSession
    rw [find?_filter_incompat _ _ _ (fun x hx => by simp [hx])]
    rfl
  · rw [hdur]
    exact find?_filter_incompat _ _ _ (fun x hx => by simp [hx])
  · rw [hdur]
    exact find?_filter_incompat _ _ _ (fun x hx => by simp [hx])

/-- Concrete instantiation of `C9_expired_guest_session_lookup`: a session
that expired at instant 5, looked up at instant 6. -/
theorem C9_expired_guest_session_lookup_witness :
    (lookupSession [("s1", ⟨"s1", "guest", 0, 5⟩)] "s1" = some ⟨"s1", "guest", 0, 5⟩
      ∧ (5 : Nat) < 6
      ∧ (AuthDB.mk [⟨"g1", "Guest_AB", true, 0, 0⟩] [⟨"AB", "g1", 0, 5⟩]).guest_sessions.find?
          (fun x => x.session_id == "AB") = some ⟨"AB", "g1", 0, 5⟩
      ∧ (AuthDB.mk [⟨"g1", "Guest_AB", true, 0, 0⟩] [⟨"AB", "g1", 0, 5⟩]).users.find?
          (fun x => x.id == "g1") = some ⟨"g1", "Guest_AB", true, 0, 0⟩)
    ∧ ((get_guest_session [("s1", ⟨"s1", "guest", 0, 5⟩)] "s1" 6).1 = none
      ∧ lookupSession (get_guest_session [("s1", ⟨"s1", "guest", 0, 5⟩)] "s1" 6).2 "s1" = none
      ∧ (get_guest_session_by_code (AuthDB.mk [⟨"g1", "Guest_AB", true, 0, 0⟩] [⟨"AB", "g1", 0, 5⟩]) "AB" 6).1 = none
      ∧ (get_guest_session_by_code (AuthDB.mk [⟨"g1", "Guest_AB", true, 0, 0⟩] [⟨"AB", "g1", 0, 5⟩]) "AB" 6).2.guest_sessions.find?
          (fun x => x.session_id == "AB") = none
      ∧ (get_guest_session_by_code (AuthDB.mk [⟨"g1", "Guest_AB", true, 0, 0⟩] [⟨"AB", "g1", 0, 5⟩]) "AB" 6).2.users.find?
          (fun x => x.id == "g1") = none) :=
  ⟨⟨by decide, by decide, by decide, by decide⟩,
   C9_expired_guest_session_lookup _ "s1" ⟨"s1", "guest", 0, 5⟩ 6 _ "AB" ⟨"AB", "g1", 0, 5⟩
     ⟨"g1", "Guest_AB", true, 0, 0⟩ 6 (by decide) (by decide) (by decide) (by decide) (by decide)⟩

theorem conversationOwned_iff (db : DB) (cid : Nat) (uid : String) :
    conversationOwned db cid uid = true
      ↔ ∃ c ∈ db.conversations, c.id = cid ∧ c.user_id = uid := by
  simp [conversationOwned, List.any_eq_true, Bool.and_eq_true, beq_iff_eq]

/-- C3: a user B distinct from the owner A of a conversation gets
`NotFound` from every store operation aimed at that conversation —
history read, message save, title update and delete — because each one
first runs the id+owner `SELECT`.  The failed calls return
`Except.error`, which carries no rows and no new state, so nothing of A's
is returned or mutated. -/
theorem C3_ownership_isolation (db : DB) (A B : String) (cid limit : Nat)
    (newTitle um br : String) (cts : List String) (now : Nat)
    (hwf : DBWF db) (hAB : A ≠ B) (hown : conversationOwned db cid A = true) :
    get_chat_history_async db B (some cid) limit = .error .notFound
    ∧ save_chat_async db B cid um br cts now = .error .notFound
    ∧ update_conversation_title_async db B cid newTitle now = .error .notFound
    ∧ delete_conversation_async db B cid = .error .notFound := by
  obtain ⟨c, hc, hcid, hcu⟩ := (conversationOwned_iff db cid A).1 hown
  have hpos : 0 < cid := hcid ▸ hwf.1 c hc
  have hne : cid ≠ 0 := by omega
  have hB : conversationOwned db cid B = false := by
    rw [Bool.eq_false_iff]
    intro hh
    obtain ⟨c', hc', hcid', hcu'⟩ := (conversationOwned_iff db cid B).1 hh
    have hcc : c = c' :=
      List.inj_on_of_nodup_map hwf.2.1 hc hc' (hcid.trans hcid'.symm)
    exact hAB ((hcu.symm.trans (congrArg ConvRow.user_id hcc)).trans hcu')
  refine ⟨?_, ?_, ?_, ?_⟩
  · simp [get_chat_history_async, cidTruthy, hne, hB]
  · simp [save_chat_async, hB]
  · simp [update_conversation_title_async, hB]
  · simp [delete_conversation_async, hB]

/-- Concrete instantiation of `C3_ownership_isolation`: user "B" against
the conversation 1 owned by "A". -/
theorem C3_ownership_isolation_witness :
    (DBWF (DB.mk [⟨1, "A", "t", 0, 0⟩] [] 2 1)
      ∧ "A" ≠ "B"
      ∧ conversationOwned (DB.mk [⟨1, "A", "t", 0, 0⟩] [] 2 1) 1 "A" = true)
    ∧ (get_chat_history_async (DB.mk [⟨1, "A", "t", 0, 0⟩] [] 2 1) "B" (some 1) 50 = .error .notFound
      ∧ save_chat_async (DB.mk [⟨1, "A", "t", 0, 0⟩] [] 2 1) "B" 1 "q" "a" [] 7 = .error .notFound
      ∧ update_conversation_title_async (DB.mk [⟨1, "A", "t", 0, 0⟩] [] 2 1) "B" 1 "nt" 7 = .error .notFound
      ∧ delete_conversation_async (DB.mk [⟨1, "A", "t", 0, 0⟩] [] 2 1) "B" 1 = .error .notFound) :=
  ⟨⟨⟨by decide, by decide, by decide, by decide⟩, by decide, by decide⟩,
   C3_ownership_isolation (DB.mk [⟨1, "A", "t", 0, 0⟩] [] 2 1) "A" "B" 1 50 "nt" "q" "a" [] 7
     ⟨by decide, by decide, by decide, by decide⟩ (by decide) (by decide)⟩

theorem get_history_notFound (db : DB) (uid : String) (cid limit : Nat)
    (hne : cid ≠ 0) (h : conversationOwned db cid uid = false) :
    get_chat_history_async db uid (some cid) limit = .error .notFound := by
  simp [get_chat_history_async, cidTruthy, hne, h]

theorem any_filter_not (l : List α) (p : α → Bool) :
    (l.filter (fun x => !(p x))).any p = false := by
  induction l with
  | nil => rfl
  | cons x xs ih =>
    by_cases h : p x = true
    · simp [List.filter_cons, h, ih]
    · simp only [Bool.not_eq_true] at h
      simp [List.filter_cons, h, ih]

/-- C5: once `delete_conversation_async` has returned successfully, a
history read of the deleted conversation fails `NotFound` and a direct
scan of the message log for that conversation id is empty; the delete
commits both table updates in one transaction, so this is the only state
any subsequent call can observe. -/
theorem C5_cascade_delete (db db' : DB) (uid : String) (cid limit : Nat)
    (hwf : DBWF db)
    (hdel : delete_conversation_async db uid cid = .ok db') :
    get_chat_history_async db' uid (some cid) limit = .error .notFound
    ∧ db'.chat_history.filter (fun m => m.conversation_id == cid) = [] := by
  unfold delete_conversation_async at hdel
  by_cases hown : conversationOwned db cid uid = true
  case neg =>
    rw [if_neg hown] at hdel
    exact absurd hdel (by simp)
  rw [if_pos hown] at hdel
  injection hdel with hdb'
  subst hdb'
  obtain ⟨c, hc, hcid, hcu⟩ := (conversationOwned_iff db cid uid).1 hown
  have hne : cid ≠ 0 := by have := hwf.1 c hc; omega
  have hnotowned : conversationOwned
      { db with
        chat_history := db.chat_history.filter (fun m => !(m.conversation_id == cid)),
        conversations := db.conversations.filter (fun c => !(c.id == cid && c.user_id == uid)) }
      cid uid = false := by
    simpa [conversationOwned] using
      any_filter_not db.conversations (fun c => c.id == cid && c.user_id == uid)
  constructor
  · exact get_history_notFound _ uid cid limit hne hnotowned
  · simp only [List.filter_filter]
    have : ∀ m : MsgRow, ((m.conversation_id == cid) && !(m.conversation_id == cid)) = false := by
      intro m; by_cases h : m.conversation_id = cid <;> simp [h]
    simp [this]

/-- Concrete instantiation of `C5_cascade_delete`: delete the only
conversation of "u" and observe the empty post-state. -/
theorem C5_cascade_delete_witness :
    (DBWF (DB.mk [⟨1, "u", "t", 0, 5⟩] [⟨1, 1, "q", "a", [], 5⟩] 2 2)
      ∧ delete_conversation_async (DB.mk [⟨1, "u", "t", 0, 5⟩] [⟨1, 1, "q", "a", [], 5⟩] 2 2) "u" 1
          = .ok (DB.mk [] [] 2 2))
    ∧ (get_chat_history_async (DB.mk [] [] 2 2) "u" (some 1) 50 = .error .notFound
      ∧ (DB.mk [] [] 2 2).chat_history.filter (fun m => m.conversation_id == 1) = []) :=
  ⟨⟨⟨by decide, by decide, by decide, by decide⟩, rfl⟩,
   C5_cascade_delete (DB.mk [⟨1, "u", "t", 0, 5⟩] [⟨1, 1, "q", "a", [], 5⟩] 2 2) (DB.mk [] [] 2 2)
     "u" 1 50 ⟨by decide, by decide, by decide, by decide⟩ rfl⟩

theorem insertOrd_eq_append (le : α → α → Bool) (a : α) (l : List α)
    (h : ∀ x ∈ l, le a x = false) : insertOrd le a l = l ++ [a] := by
  induction l with
  | nil => rfl
  | cons x xs ih =>
    rw [insertOrd, if_neg (by simp [h x (List.mem_cons_self x xs)]),
      ih (fun y hy => h y (List.mem_cons_of_mem x hy))]
    rfl

/-- An insertion sort whose order relation rejects every in-order pair of
the input reverses the input (this is how `ORDER BY ... DESC` acts on
rows stored in ascending key order). -/
theorem sortOrd_eq_reverse (le : α → α → Bool) (l : List α)
    (h : l.Pairwise (fun a b => le a b = false)) : sortOrd le l = l.reverse := by
  induction l with
  | nil => rfl
  | cons x xs ih =>
    rw [List.pairwise_cons] at h
    show insertOrd le x (sortOrd le xs) = (x :: xs).reverse
    rw [ih h.2, insertOrd_eq_append le x xs.reverse
      (fun y hy => h.1 y (List.mem_reverse.1 hy)), List.reverse_cons]

theorem find?_unique (l : List α) (p : α → Bool) (c : α) (hc : c ∈ l) (hpc : p c = true)
    (huniq : ∀ x ∈ l, p x = true → x = c) : l.find? p = some c := by
  induction l with
  | nil => cases hc
  | cons y ys ih =>
    by_cases hy : p y = true
    · have hyc : y = c := huniq y (List.mem_cons_self y ys) hy
      subst hyc
      simp [List.find?_cons, hy]
    · have hcy : c ∈ ys := by
        rcases List.mem_cons.1 hc with h | h
        · exact absurd (h ▸ hpc) hy
        · exact h
      simp only [Bool.not_eq_true] at hy
      simp only [List.find?_cons, hy]
      exact ih hcy (fun x hx hpx => huniq x (List.mem_cons_of_mem y hx) hpx)

theorem filterMap_guard (l : List α) (q : α → Bool) (g : α → β) :
    l.filterMap (fun a => if q a then some (g a) else none) = (l.filter q).map g := by
  induction l with
  | nil => rfl
  | cons x xs ih =>
    by_cases h : q x = true
    · simp [List.filterMap_cons, List.filter_cons, h, ih]
    · simp only [Bool.not_eq_true] at h
      simp [List.filterMap_cons, List.filter_cons, h, ih]

/-- The explicit-conversation branch of `get_chat_history_async` returns
the conversation's rows in reverse insertion order (`ORDER BY id DESC`),
truncated to the limit. -/
theorem get_history_explicit_desc (db : DB) (uid : String) (cid limit : Nat)
    (hwf : DBWF db) (hown : conversationOwned db cid uid = true) :
    get_chat_history_async db uid (some cid) limit =
      .ok (((db.chat_history.filter (fun m => m.conversation_id == cid)).reverse.take limit).map
        toHistoryItem) := by
  obtain ⟨c, hc, hcid, hcu⟩ := (conversationOwned_iff db cid uid).1 hown
  have hne : cid ≠ 0 := by have := hwf.1 c hc; omega
  have hsort : sortOrd msgDescIdLe (db.chat_history.filter (fun m => m.conversation_id == cid))
      = (db.chat_history.filter (fun m => m.conversation_id == cid)).reverse := by
    apply sortOrd_eq_reverse
    exact (hwf.2.2.1.filter _).imp (fun hab => by
      simp only [msgDescIdLe, decide_eq_false_iff_not]; omega)
  simp [get_chat_history_async, cidTruthy, hne, hown, hsort]

/-- When the user's conversations reduce to the single row `c`, the
`JOIN` of the most-recent-conversation branch selects exactly the message
rows of `c`, each paired with `c.updated_at`. -/
theorem recentRows_single (db : DB) (uid : String) (c : ConvRow)
    (hfilter : db.conversations.filter (fun x => x.user_id == uid) = [c]) :
    recentRows db uid =
      (db.chat_history.filter (fun m => m.conversation_id == c.id)).map
        (fun m => (m, c.updated_at)) := by
  have hcmem : c ∈ db.conversations ∧ (c.user_id == uid) = true := by
    have hmem : c ∈ db.conversations.filter (fun x => x.user_id == uid) := by
      rw [hfilter]; exact List.mem_singleton.2 rfl
    exact ⟨(List.mem_filter.1 hmem).1, (List.mem_filter.1 hmem).2⟩
  have huniq : ∀ x ∈ db.conversations, x.user_id = uid → x = c := by
    intro x hx hxu
    have hmem : x ∈ db.conversations.filter (fun y => y.user_id == uid) :=
      List.mem_filter.2 ⟨hx, by simp [hxu]⟩
    rw [hfilter] at hmem
    exact List.mem_singleton.1 hmem
  have hpt : ∀ m : MsgRow,
      db.conversations.find? (fun x => x.id == m.conversation_id && x.user_id == uid)
        = if m.conversation_id == c.id then some c else none := by
    intro m
    by_cases hmc : m.conversation_id = c.id
    · rw [if_pos (by simp [hmc])]
      refine find?_unique _ _ c hcmem.1 (by simp [hmc, beq_iff_eq.1 hcmem.2]) ?_
      intro x hx hpx
      simp only [Bool.and_eq_true, beq_iff_eq] at hpx
      exact huniq x hx hpx.2
    · rw [if_neg (by simp [hmc])]
      rw [List.find?_eq_none]
      intro x hx
      simp only [Bool.and_eq_true, beq_iff_eq, not_and]
      intro h1 h2
      exact hmc ((huniq x hx h2 ▸ h1 : c.id = m.conversation_id).symm)
  unfold recentRows
  have hfun : (fun m : MsgRow =>
        match db.conversations.find? (fun x => x.id == m.conversation_id && x.user_id == uid) with
        | some c' => some (m, c'.updated_at)
        | none => none)
      = (fun m : MsgRow => if m.conversation_id == c.id then some (m, c.updated_at) else none) := by
    funext m
    rw [hpt m]
    by_cases h : (m.conversation_id == c.id) = true
    · simp [h]
    · simp [h]
  rw [hfun, filterMap_guard]

/-- C4 (amended): the explicit-conversation-id form of `get_history`
returns that conversation's messages newest first — the reverse of
insertion order, truncated to the limit (`ORDER BY id DESC`) — for every
user, owned conversation and limit; and when the user owns exactly one
conversation, the no-id (most-recently-updated-conversation) form returns
the same newest-first list (`ORDER BY updated_at DESC, id DESC` over the
rows of that single conversation).  No single-conversation ordering claim
is made for the no-id form of a multi-conversation user: its `JOIN`
returns messages drawn from all of the user's conversations (second half
of `C4_counterexample`). -/
theorem C4_history_newest_first (db : DB) (uid : String) (cid limit : Nat) (c : ConvRow)
    (hwf : DBWF db) (hown : conversationOwned db cid uid = true) :
    get_chat_history_async db uid (some cid) limit
      = .ok (((db.chat_history.filter (fun m => m.conversation_id == cid)).reverse.take limit).map
          toHistoryItem)
    ∧ (db.conversations.filter (fun x => x.user_id == uid) = [c] → c.id = cid →
        get_chat_history_async db uid none limit
          = .ok (((db.chat_history.filter (fun m => m.conversation_id == cid)).reverse.take limit).map
              toHistoryItem)) := by
  refine ⟨get_history_explicit_desc db uid cid limit hwf hown, fun hfilter hcid => ?_⟩
  subst hcid
  have hrr := recentRows_single db uid c hfilter
  have hsort : sortOrd joinDescLe (recentRows db uid) = (recentRows db uid).reverse := by
    apply sortOrd_eq_reverse
    rw [hrr, List.pairwise_map]
    exact (hwf.2.2.1.filter _).imp (fun hab => by
      simp only [joinDescLe, Bool.or_eq_false_iff, Bool.and_eq_false_iff,
        decide_eq_false_iff_not]
      omega)
  have hbranch : get_chat_history_async db uid none limit
      = .ok ((((sortOrd joinDescLe (recentRows db uid)).map Prod.fst).take limit).map
          toHistoryItem) := rfl
  rw [hbranch, hsort, hrr]
  simp only [List.map_reverse, List.map_map, List.map_take]
  rfl

/-- Concrete instantiation of `C4_history_newest_first` on a two-message
conversation. -/
theorem C4_history_newest_first_witness :
    (DBWF (DB.mk [⟨1, "u", "t", 0, 20⟩]
        [⟨1, 1, "q1", "a1", [], 10⟩, ⟨2, 1, "q2", "a2", [], 20⟩] 2 3)
      ∧ conversationOwned (DB.mk [⟨1, "u", "t", 0, 20⟩]
          [⟨1, 1, "q1", "a1", [], 10⟩, ⟨2, 1, "q2", "a2", [], 20⟩] 2 3) 1 "u" = true)
    ∧ (get_chat_history_async (DB.mk [⟨1, "u", "t", 0, 20⟩]
          [⟨1, 1, "q1", "a1", [], 10⟩, ⟨2, 1, "q2", "a2", [], 20⟩] 2 3) "u" (some 1) 50
        = .ok [⟨"q2", "a2", [], 20⟩, ⟨"q1", "a1", [], 10⟩]
      ∧ ((DB.mk [⟨1, "u", "t", 0, 20⟩]
            [⟨1, 1, "q1", "a1", [], 10⟩, ⟨2, 1, "q2", "a2", [], 20⟩] 2 3).conversations.filter
              (fun x => x.user_id == "u") = [⟨1, "u", "t", 0, 20⟩]
          → (⟨1, "u", "t", 0, 20⟩ : ConvRow).id = 1
          → get_chat_history_async (DB.mk [⟨1, "u", "t", 0, 20⟩]
              [⟨1, 1, "q1", "a1", [], 10⟩, ⟨2, 1, "q2", "a2", [], 20⟩] 2 3) "u" none 50
            = .ok [⟨"q2", "a2", [], 20⟩, ⟨"q1", "a1", [], 10⟩])) :=
  ⟨⟨⟨by decide, by decide, by decide, by decide⟩, by decide⟩,
   C4_history_newest_first (DB.mk [⟨1, "u", "t", 0, 20⟩]
       [⟨1, 1, "q1", "a1", [], 10⟩, ⟨2, 1, "q2", "a2", [], 20⟩] 2 3) "u" 1 50 ⟨1, "u", "t", 0, 20⟩
     ⟨by decide, by decide, by decide, by decide⟩ (by decide)⟩

/-- C4 as stated is false on both forms.  Explicit-id form: a two-message
conversation comes back with message id 2 (timestamp 20) before message
id 1 (timestamp 10) — newest first, not oldest first.  No-id form: a user
with two conversations (conversation 2 most recently updated, holding
only `q2`) gets back `[q2, q1]` — the `JOIN` draws messages from *all*
the user's conversations ordered by conversation `updated_at DESC` then
message `id DESC`, not the most-recently-updated conversation's messages,
and not oldest first. -/
theorem C4_counterexample :
    (get_chat_history_async (DB.mk [⟨1, "u", "t", 0, 20⟩]
        [⟨1, 1, "q1", "a1", [], 10⟩, ⟨2, 1, "q2", "a2", [], 20⟩] 2 3) "u" (some 1) 50
      = .ok [⟨"q2", "a2", [], 20⟩, ⟨"q1", "a1", [], 10⟩]
    ∧ ([(⟨"q2", "a2", [], 20⟩ : HistoryItem), ⟨"q1", "a1", [], 10⟩]
        ≠ [(⟨"q1", "a1", [], 10⟩ : HistoryItem), ⟨"q2", "a2", [], 20⟩]))
    ∧ (get_chat_history_async (DB.mk [⟨1, "u", "t1", 0, 10⟩, ⟨2, "u", "t2", 0, 20⟩]
        [⟨1, 1, "q1", "a1", [], 5⟩, ⟨2, 2, "q2", "a2", [], 15⟩] 3 3) "u" none 50
      = .ok [⟨"q2", "a2", [], 15⟩, ⟨"q1", "a1", [], 5⟩]
    ∧ ([(⟨"q2", "a2", [], 15⟩ : HistoryItem), ⟨"q1", "a1", [], 5⟩]
        ≠ [(⟨"q2", "a2", [], 15⟩ : HistoryItem)])) := by
  refine ⟨⟨?_, by decide⟩, ?_, by decide⟩
  · rfl
  · rfl

theorem buildUC_format_inv (uris : List String) (acc : List (List Char × String))
    (hacc : ∀ p ∈ acc, p.1 = format_source_uri p.2.data) :
    ∀ p ∈ uris.foldl (fun acc uri =>
        if acc.any (fun p => p.1 == format_source_uri uri.data) then acc
        else acc ++ [(format_source_uri uri.data, uri)]) acc,
      p.1 = format_source_uri p.2.data := by
  induction uris generalizing acc with
  | nil => exact hacc
  | cons u us ih =>
    intro p hp
    refine ih _ ?_ p hp
    intro q hq
    have hq' : q ∈ if (acc.any fun p => p.1 == format_source_uri u.data) = true
        then acc else acc ++ [(format_source_uri u.data, u)] := hq
    by_cases h : acc.any (fun p => p.1 == format_source_uri u.data) = true
    · rw [if_pos h] at hq'
      exact hacc q hq'
    · rw [if_neg h] at hq'
      rcases List.mem_append.1 hq' with hq'' | hq''
      · exact hacc q hq''
      · rw [List.mem_singleton.1 hq'']

theorem buildUC_fst_aux (uris : List String) (acc : List (List Char × String)) :
    (uris.foldl (fun acc uri =>
        if acc.any (fun p => p.1 == format_source_uri uri.data) then acc
        else acc ++ [(format_source_uri uri.data, uri)]) acc).map Prod.fst
      = (uris.map (fun u => format_source_uri u.data)).foldl
          (fun acc n => if acc.any (fun m => m == n) then acc else acc ++ [n])
          (acc.map Prod.fst) := by
  induction uris generalizing acc with
  | nil => rfl
  | cons u us ih =>
    simp only [List.foldl_cons, List.map_cons]
    rw [ih]
    congr 1
    have hc : ((acc.map Prod.fst).any fun m => m == format_source_uri u.data)
        = acc.any (fun p => p.1 == format_source_uri u.data) := by
      induction acc with
      | nil => rfl
      | cons a as iha => simp [List.any_cons, iha]
    rw [hc]
    by_cases h : acc.any (fun p => p.1 == format_source_uri u.data) = true
    · rw [if_pos h, if_pos h]
    · rw [if_neg h, if_neg h]
      simp

theorem idxOfUri_exists (uri : String) (l : List (List Char × String))
    (h : uri ∈ l.map Prod.snd) : ∃ k, idxOfUri uri l = some k := by
  induction l with
  | nil => cases h
  | cons p ps ih =>
    by_cases hp : (p.2 == uri) = true
    · exact ⟨0, by simp [idxOfUri, hp]⟩
    · have : uri ∈ ps.map Prod.snd := by
        rcases List.mem_cons.1 h with h' | h'
        · exact absurd (by simp [h'.symm] : (p.2 == uri) = true) hp
        · exact h'
      obtain ⟨k, hk⟩ := ih this
      exact ⟨k + 1, by simp [idxOfUri, hp, hk]⟩

theorem idxOfUri_get? (uri : String) (l : List (List Char × String)) (k : Nat)
    (h : idxOfUri uri l = some k) : ∃ nm, l.get? k = some (nm, uri) := by
  induction l generalizing k with
  | nil => cases h
  | cons p ps ih =>
    by_cases hp : (p.2 == uri) = true
    · rw [idxOfUri, if_pos hp] at h
      injection h with h
      subst h
      exact ⟨p.1, by
        have : p = (p.1, uri) := by
          have := beq_iff_eq.1 hp
          cases p
          simp_all
        rw [this]
        rfl⟩
    · rw [idxOfUri, if_neg hp] at h
      cases hk' : idxOfUri uri ps with
      | none => rw [hk'] at h; cases h
      | some k' =>
        rw [hk'] at h
        injection h with h
        subst h
        obtain ⟨nm, hnm⟩ := ih k' hk'
        exact ⟨nm, by simpa using hnm⟩

theorem formattedCitationsFrom_get? (l : List (List Char × String)) (n k : Nat)
    (p : List Char × String) (h : l.get? k = some p) :
    (formattedCitationsFrom n l).get? k
      = some ("[" ++ Nat.repr (n + k) ++ "] - " ++ String.mk p.1) := by
  induction l generalizing n k with
  | nil => cases h
  | cons q qs ih =>
    cases k with
    | zero =>
      injection h with h
      subst h
      rfl
    | succ k' =>
      have := ih (n + 1) k' (by simpa using h)
      simpa [formattedCitationsFrom, Nat.add_assoc, Nat.add_comm 1 k'] using this

/-- C1 (amended): the citation registry numbers display names 1, 2, ... in
first-seen display-name order, the returned citation list is exactly
`"[n] - display_name"` per deduplicated entry in that order, and the
bracket number written before a passage group agrees with the citation
list *provided the group's locator is the stored first-seen representative
of its display name* — which is the case whenever no two distinct
locators share a display name.  (A passage group whose locator collides
with an earlier locator's display name falls back to bracket number 1;
see `C1_counterexample`.) -/
theorem C1_citation_numbering (uris docs : List String) (uri : String) (ds : List String)
    (_hmem : (uri, ds) ∈ buildDocGroups docs uris)
    (hrep : uri ∈ (buildUniqueCitations uris).map Prod.snd) :
    (buildUniqueCitations uris).map Prod.fst
      = firstSeenDedup (uris.map (fun u => format_source_uri u.data))
    ∧ (formattedCitations (buildUniqueCitations uris)).get?
        (uriNumberD (buildUniqueCitations uris) uri - 1)
      = some ("[" ++ Nat.repr (uriNumberD (buildUniqueCitations uris) uri) ++ "] - "
          ++ String.mk (format_source_uri uri.data)) := by
  constructor
  · exact buildUC_fst_aux uris []
  · obtain ⟨k, hk⟩ := idxOfUri_exists uri (buildUniqueCitations uris) hrep
    obtain ⟨nm, hget⟩ := idxOfUri_get? uri (buildUniqueCitations uris) k hk
    have hnm : nm = format_source_uri uri.data := by
      have hmem' : (nm, uri) ∈ buildUniqueCitations uris := List.get?_mem hget
      exact buildUC_format_inv uris [] (by intro p hp; cases hp) (nm, uri) hmem'
    have hnum : uriNumberD (buildUniqueCitations uris) uri = k + 1 := by
      simp [uriNumberD, hk]
    rw [hnum, Nat.add_sub_cancel, formattedCitations,
      formattedCitationsFrom_get? (buildUniqueCitations uris) 1 k (nm, uri) hget,
      hnm, Nat.add_comm 1 k]

/-- Concrete instantiation of `C1_citation_numbering`: two distinct
locators with distinct display names. -/
theorem C1_citation_numbering_witness :
    (("s3://b/d/Doc_2.md", ["p2"])
        ∈ buildDocGroups ["p1", "p2"] ["s3://b/d/Doc_1.md", "s3://b/d/Doc_2.md"]
      ∧ "s3://b/d/Doc_2.md"
        ∈ (buildUniqueCitations ["s3://b/d/Doc_1.md", "s3://b/d/Doc_2.md"]).map Prod.snd)
    ∧ ((buildUniqueCitations ["s3://b/d/Doc_1.md", "s3://b/d/Doc_2.md"]).map Prod.fst
        = firstSeenDedup ((["s3://b/d/Doc_1.md", "s3://b/d/Doc_2.md"] : List String).map
            (fun u => format_source_uri u.data))
      ∧ (formattedCitations (buildUniqueCitations ["s3://b/d/Doc_1.md", "s3://b/d/Doc_2.md"])).get?
          (uriNumberD (buildUniqueCitations ["s3://b/d/Doc_1.md", "s3://b/d/Doc_2.md"])
            "s3://b/d/Doc_2.md" - 1)
        = some ("[" ++ Nat.repr (uriNumberD
              (buildUniqueCitations ["s3://b/d/Doc_1.md", "s3://b/d/Doc_2.md"])
              "s3://b/d/Doc_2.md") ++ "] - "
            ++ String.mk (format_source_uri "s3://b/d/Doc_2.md".data))) :=
  ⟨⟨by decide, by decide⟩,
   C1_citation_numbering ["s3://b/d/Doc_1.md", "s3://b/d/Doc_2.md"] ["p1", "p2"]
     "s3://b/d/Doc_2.md" ["p2"] (by decide) (by decide)⟩

/-- C1 as stated is false when two distinct locators share a display
name: with locators `a/w.t`, `a/x.t`, `b/x.t` (display names `w`, `x`,
`x`), the passage group of `b/x.t` is headed `[1]` in the prompt (the
`.get(uri, 1)` fallback) while its display name `x` is numbered `[2]` in
the returned citation list. -/
theorem C1_counterexample :
    (buildDocGroups ["d1", "d2", "d3"] ["a/w.t", "a/x.t", "b/x.t"]).map
        (fun g => uriNumberD (buildUniqueCitations ["a/w.t", "a/x.t", "b/x.t"]) g.1)
      = [1, 2, 1]
    ∧ ("b/x.t", ["d3"]) ∈ buildDocGroups ["d1", "d2", "d3"] ["a/w.t", "a/x.t", "b/x.t"]
    ∧ format_source_uri "b/x.t".data = "x".data
    ∧ formattedCitations (buildUniqueCitations ["a/w.t", "a/x.t", "b/x.t"])
      = ["[1] - w", "[2] - x"] := by
  refine ⟨by decide, by decide, by decide, ?_⟩
  rfl

theorem contains_eq_decide_mem [BEq α] [LawfulBEq α] (l : List α) (a : α) :
    l.contains a = decide (a ∈ l) :=
  List.elem_eq_mem a l

theorem extractRetrieval_aux (results : List (String × String)) (acc : List String × List String)
    (hnodup : (results.map Prod.snd).Nodup)
    (huri : ∀ r ∈ results, r.2 ≠ "")
    (hnew : ∀ r ∈ results, r.2 ∉ acc.2) :
    results.foldl (fun acc r =>
        if r.1 != "" then
          (acc.1 ++ [r.1],
           if r.2 != "" then (if acc.2.contains r.2 then acc.2 else acc.2 ++ [r.2]) else acc.2)
        else acc) acc
      = (acc.1 ++ (results.filter (fun r => r.1 != "")).map Prod.fst,
         acc.2 ++ (results.filter (fun r => r.1 != "")).map Prod.snd) := by
  induction results generalizing acc with
  | nil => simp
  | cons r rs ih =>
    rw [List.map_cons, List.nodup_cons] at hnodup
    have huri' : ∀ x ∈ rs, x.2 ≠ "" := fun x hx => huri x (List.mem_cons_of_mem r hx)
    by_cases ht : (r.1 != "") = true
    · have hu2 : (r.2 != "") = true := by
        have := huri r (List.mem_cons_self r rs)
        simpa [bne_iff_ne] using this
      have hcont : acc.2.contains r.2 = false := by
        rw [contains_eq_decide_mem]
        simpa using hnew r (List.mem_cons_self r rs)
      have hnew' : ∀ x ∈ rs, x.2 ∉ acc.2 ++ [r.2] := by
        intro x hx
        rw [List.mem_append, List.mem_singleton]
        rintro (hmem | hmem)
        · exact hnew x (List.mem_cons_of_mem r hx) hmem
        · exact hnodup.1 (hmem ▸ List.mem_map_of_mem Prod.snd hx)
      have hcont' : ¬(acc.2.contains r.2 = true) := by
        rw [hcont]
        exact Bool.false_ne_true
      rw [List.foldl_cons]
      rw [if_pos ht, if_pos hu2, if_neg hcont',
        ih (acc.1 ++ [r.1], acc.2 ++ [r.2]) hnodup.2 huri' hnew']
      simp [List.filter_cons, ht]
    · have hnew'' : ∀ x ∈ rs, x.2 ∉ acc.2 := fun x hx => hnew x (List.mem_cons_of_mem r hx)
      rw [List.foldl_cons]
      rw [if_neg ht, ih acc hnodup.2 huri' hnew'']
      simp only [Bool.not_eq_true] at ht
      simp [List.filter_cons, ht]

theorem buildDocGroups_nodup_aux (pairs : List (String × String)) (gs : List (String × List String))
    (hnodup : (pairs.map Prod.snd).Nodup)
    (hfresh : ∀ p ∈ pairs, ∀ g ∈ gs, g.1 ≠ p.2) :
    pairs.foldl (fun gs du =>
        if gs.any (fun g => g.1 == du.2) then
          gs.map (fun g => if g.1 == du.2 then (g.1, g.2 ++ [du.1]) else g)
        else gs ++ [(du.2, [du.1])]) gs
      = gs ++ pairs.map (fun p => (p.2, [p.1])) := by
  induction pairs generalizing gs with
  | nil => simp
  | cons p ps ih =>
    rw [List.map_cons, List.nodup_cons] at hnodup
    have hany : gs.any (fun g => g.1 == p.2) = false := by
      rw [List.any_eq_false]
      intro g hg
      simp [hfresh p (List.mem_cons_self p ps) g hg]
    have hfresh' : ∀ q ∈ ps, ∀ g ∈ gs ++ [(p.2, [p.1])], g.1 ≠ q.2 := by
      intro q hq g hg
      rcases List.mem_append.1 hg with hg' | hg'
      · exact hfresh q (List.mem_cons_of_mem p hq) g hg'
      · rw [List.mem_singleton.1 hg']
        intro hcontra
        have hpq : p.2 = q.2 := hcontra
        refine hnodup.1 ?_
        rw [hpq]
        exact List.mem_map_of_mem Prod.snd hq
    rw [List.foldl_cons]
    rw [if_neg (by simp [hany]), ih (gs ++ [(p.2, [p.1])]) hnodup.2 hfresh']
    simp

theorem flatten_map_snd_singleton (pairs : List (String × String)) :
    ((pairs.map (fun p => ((p.2, [p.1]) : String × List String))).map Prod.snd).flatten
      = pairs.map Prod.fst := by
  induction pairs with
  | nil => rfl
  | cons p ps ih =>
    simp only [List.map_cons, List.flatten_cons, ih]
    rfl

/-- C2 (amended): when the retrieval results carry pairwise-distinct
non-empty locators, the extracted passage and locator lists are aligned by
index, every passage lands in the prompt group of exactly its own locator
(each group is a singleton), and the groups jointly contain every
retrieved passage.  (When two results share a locator, the extraction
dedupe shortens the locator list and passages beyond its length are
dropped from the prompt; see `C2_counterexample`.) -/
theorem C2_passages_grouped (results : List (String × String))
    (hnodup : (results.map Prod.snd).Nodup)
    (huri : ∀ r ∈ results, r.2 ≠ "") :
    (extractRetrieval results).2.length = (extractRetrieval results).1.length
    ∧ buildDocGroups (extractRetrieval results).1 (extractRetrieval results).2
      = ((extractRetrieval results).1.zip (extractRetrieval results).2).map
          (fun p => (p.2, [p.1]))
    ∧ ((buildDocGroups (extractRetrieval results).1
          (extractRetrieval results).2).map Prod.snd).flatten
      = (extractRetrieval results).1 := by
  have hex : extractRetrieval results
      = ((results.filter (fun r => r.1 != "")).map Prod.fst,
         (results.filter (fun r => r.1 != "")).map Prod.snd) := by
    have := extractRetrieval_aux results ([], []) hnodup huri (by simp)
    simpa [extractRetrieval] using this
  have hzip : (extractRetrieval results).1.zip (extractRetrieval results).2
      = results.filter (fun r => r.1 != "") := by
    rw [hex, List.zip_map']
    simp
  have hgroups : buildDocGroups (extractRetrieval results).1 (extractRetrieval results).2
      = (results.filter (fun r => r.1 != "")).map (fun p => (p.2, [p.1])) := by
    unfold buildDocGroups
    rw [hzip]
    have hnodup' : ((results.filter (fun r => r.1 != "")).map Prod.snd).Nodup :=
      ((List.filter_sublist results).map Prod.snd).nodup hnodup
    simpa using buildDocGroups_nodup_aux (results.filter (fun r => r.1 != "")) [] hnodup'
      (by intro p _ g hg; cases hg)
  refine ⟨by simp [hex], ?_, ?_⟩
  · rw [hgroups, hzip]
  · rw [hgroups, flatten_map_snd_singleton, hex]

/-- Concrete instantiation of `C2_passages_grouped`: two results with
distinct locators. -/
theorem C2_passages_grouped_witness :
    ((([("t1", "u1"), ("t2", "u2")] : List (String × String)).map Prod.snd).Nodup
      ∧ ∀ r ∈ ([("t1", "u1"), ("t2", "u2")] : List (String × String)), r.2 ≠ "")
    ∧ ((extractRetrieval [("t1", "u1"), ("t2", "u2")]).2.length
        = (extractRetrieval [("t1", "u1"), ("t2", "u2")]).1.length
      ∧ buildDocGroups (extractRetrieval [("t1", "u1"), ("t2", "u2")]).1
          (extractRetrieval [("t1", "u1"), ("t2", "u2")]).2
        = ((extractRetrieval [("t1", "u1"), ("t2", "u2")]).1.zip
            (extractRetrieval [("t1", "u1"), ("t2", "u2")]).2).map (fun p => (p.2, [p.1]))
      ∧ ((buildDocGroups (extractRetrieval [("t1", "u1"), ("t2", "u2")]).1
            (extractRetrieval [("t1", "u1"), ("t2", "u2")]).2).map Prod.snd).flatten
        = (extractRetrieval [("t1", "u1"), ("t2", "u2")]).1) :=
  ⟨⟨by decide, by decide⟩,
   C2_passages_grouped [("t1", "u1"), ("t2", "u2")] (by decide) (by decide)⟩

/-- C2 as stated is false: two retrieval results from the same locator
produce two passages but a single (deduplicated) locator, and the second
passage is silently dropped from the prompt's groups (`"t2"` is retrieved
yet appears in no group). -/
theorem C2_counterexample :
    extractRetrieval [("t1", "u"), ("t2", "u")] = (["t1", "t2"], ["u"])
    ∧ buildDocGroups ["t1", "t2"] ["u"] = [("u", ["t1"])] := by
  constructor
  · rfl
  · rfl

/-- With the Bedrock client up, a raising generation call makes
`generate_response_with_context` return the language-appropriate error
literal and no citations, whatever was retrieved. -/
theorem generate_error_path (msg : String) (docs : Option (List String)) (uris : List String)
    (hist : List HistoryItem) (e : String) :
    generate_response_with_context true msg docs uris hist (fun _ => .error e)
      = (bedrockFailLiteral (get_conversation_language msg.data hist) e, []) := rfl

/-- C6: when the generation call raises, the chat request still completes
with HTTP success: the response is the literal Bedrock-error string in the
resolved conversation language, the citation list is empty, and the
degraded exchange is appended to the conversation's message log
(persisted via `save_chat_async` before returning). -/
theorem C6_generator_failure_degrades (db : DB) (user msg : String) (cid_opt : Option Nat)
    (n1 n2 : Nat) (retrieval : Option (List (String × String))) (e : String)
    (hnext : 0 < db.nextConvId)
    (hown : cidTruthy cid_opt = true → conversationOwned db (cid_opt.getD 0) user = true) :
    ∃ db2 hist,
      get_chat_history_async (resolve_conversation db user cid_opt n1).2 user
          (some (resolve_conversation db user cid_opt n1).1) 10 = .ok hist
      ∧ chat_endpoint db user msg cid_opt n1 n2 retrieval (fun _ => .error e) true
          = .ok (db2, bedrockFailLiteral (get_conversation_language msg.data hist) e, [],
              (resolve_conversation db user cid_opt n1).1)
      ∧ db2.chat_history
          = (resolve_conversation db user cid_opt n1).2.chat_history
            ++ [⟨(resolve_conversation db user cid_opt n1).2.nextMsgId,
                 (resolve_conversation db user cid_opt n1).1, msg,
                 bedrockFailLiteral (get_conversation_language msg.data hist) e, [], n2⟩] := by
  have hown1 : conversationOwned (resolve_conversation db user cid_opt n1).2
      (resolve_conversation db user cid_opt n1).1 user = true := by
    by_cases h : cidTruthy cid_opt = true
    · simpa [resolve_conversation, h] using hown h
    · simp [resolve_conversation, h, create_conversation_async, conversationOwned]
  have htr : cidTruthy (some (resolve_conversation db user cid_opt n1).1) = true := by
    by_cases h : cidTruthy cid_opt = true
    · cases cid_opt with
      | none => simp [cidTruthy] at h
      | some n => simp [resolve_conversation, h]
    · have hres : (resolve_conversation db user cid_opt n1).1 = db.nextConvId := by
        simp [resolve_conversation, h, create_conversation_async]
      rw [hres]
      simp only [cidTruthy, bne_iff_ne, ne_eq]
      omega
  set cid := (resolve_conversation db user cid_opt n1).1 with hcid
  set db1 := (resolve_conversation db user cid_opt n1).2 with hdb1
  have hget : get_chat_history_async db1 user (some cid) 10
      = .ok (((sortOrd msgDescIdLe (db1.chat_history.filter
          (fun m => m.conversation_id == cid))).take 10).map toHistoryItem) := by
    unfold get_chat_history_async
    rw [if_pos htr]
    simp only [Option.getD_some]
    rw [if_pos hown1]
  refine ⟨{ db1 with
      chat_history := db1.chat_history ++ [⟨db1.nextMsgId, cid, msg,
        bedrockFailLiteral (get_conversation_language msg.data
          (((sortOrd msgDescIdLe (db1.chat_history.filter
            (fun m => m.conversation_id == cid))).take 10).map toHistoryItem)) e, [], n2⟩],
      nextMsgId := db1.nextMsgId + 1,
      conversations := db1.conversations.map (fun c =>
        if c.id == cid && c.user_id == user then { c with updated_at := n2 } else c) },
    ((sortOrd msgDescIdLe (db1.chat_history.filter
        (fun m => m.conversation_id == cid))).take 10).map toHistoryItem,
    hget, ?_, by simp⟩
  unfold chat_endpoint
  dsimp only
  rw [← hcid, ← hdb1, hget]
  dsimp only
  rw [generate_error_path]
  dsimp only
  unfold save_chat_async
  rw [if_pos hown1]

/-- Concrete instantiation of `C6_generator_failure_degrades`: a fresh
conversation on an empty store, generator raising "boom". -/
theorem C6_generator_failure_degrades_witness :
    (0 < (DB.mk [] [] 1 1).nextConvId
      ∧ (cidTruthy none = true
          → conversationOwned (DB.mk [] [] 1 1) ((none : Option Nat).getD 0) "u" = true))
    ∧ (∃ db2 hist,
        get_chat_history_async (resolve_conversation (DB.mk [] [] 1 1) "u" none 3).2 "u"
            (some (resolve_conversation (DB.mk [] [] 1 1) "u" none 3).1) 10 = .ok hist
        ∧ chat_endpoint (DB.mk [] [] 1 1) "u" "hola" none 3 4 none (fun _ => .error "boom") true
            = .ok (db2, bedrockFailLiteral (get_conversation_language "hola".data hist) "boom", [],
                (resolve_conversation (DB.mk [] [] 1 1) "u" none 3).1)
        ∧ db2.chat_history
            = (resolve_conversation (DB.mk [] [] 1 1) "u" none 3).2.chat_history
              ++ [⟨(resolve_conversation (DB.mk [] [] 1 1) "u" none 3).2.nextMsgId,
                   (resolve_conversation (DB.mk [] [] 1 1) "u" none 3).1, "hola",
                   bedrockFailLiteral (get_conversation_language "hola".data hist) "boom", [], 4⟩]) :=
  ⟨⟨by decide, by decide⟩,
   C6_generator_failure_degrades (DB.mk [] [] 1 1) "u" "hola" none 3 4 none "boom"
     (by decide) (by decide)⟩

theorem getLastD_mem' (l : List α) (d : α) (h : l ≠ []) : l.getLastD d ∈ l := by
  rw [List.getLastD_eq_getLast?, List.getLast?_eq_getLast l h, Option.getD_some]
  exact List.getLast_mem h

theorem getD_mem' (l : List α) (d : α) (n : Nat) (h : n < l.length) : l.getD n d ∈ l := by
  rw [List.getD_eq_getElem l d h]
  exact List.getElem_mem h

theorem splitOnChar_ne_nil (c : Char) (l : List Char) : splitOnChar c l ≠ [] := by
  cases l with
  | nil => simp [splitOnChar]
  | cons x xs =>
    unfold splitOnChar
    split
    · simp
    · split <;> simp

/-- The separator never occurs inside a piece of the split. -/
theorem not_mem_of_mem_splitOnChar (c : Char) (l : List Char) :
    ∀ p ∈ splitOnChar c l, c ∉ p := by
  induction l with
  | nil =>
    intro p hp
    simp only [splitOnChar, List.mem_singleton] at hp
    subst hp
    exact List.not_mem_nil c
  | cons x xs ih =>
    intro p hp
    unfold splitOnChar at hp
    cases hsp : splitOnChar c xs with
    | nil => exact absurd hsp (splitOnChar_ne_nil c xs)
    | cons h t =>
      simp only [hsp] at hp
      by_cases hx : x = c
      · rw [if_pos hx] at hp
        rcases List.mem_cons.1 hp with rfl | hp'
        · exact List.not_mem_nil c
        · exact ih p (hsp ▸ hp')
      · rw [if_neg hx] at hp
        rcases List.mem_cons.1 hp with rfl | hp'
        · intro hc
          rcases List.mem_cons.1 hc with h1 | h1
          · exact hx h1.symm
          · exact ih h (hsp ▸ List.mem_cons_self h t) h1
        · exact ih p (hsp ▸ List.mem_cons_of_mem h hp')

/-- Every character of a split piece comes from the split input. -/
theorem mem_of_mem_splitOnChar (c : Char) (l : List Char) :
    ∀ p ∈ splitOnChar c l, ∀ a ∈ p, a ∈ l := by
  induction l with
  | nil =>
    intro p hp a ha
    simp only [splitOnChar, List.mem_singleton] at hp
    subst hp
    cases ha
  | cons x xs ih =>
    intro p hp a ha
    unfold splitOnChar at hp
    cases hsp : splitOnChar c xs with
    | nil => exact absurd hsp (splitOnChar_ne_nil c xs)
    | cons h t =>
      simp only [hsp] at hp
      by_cases hx : x = c
      · rw [if_pos hx] at hp
        rcases List.mem_cons.1 hp with rfl | hp'
        · cases ha
        · exact List.mem_cons_of_mem x (ih p (hsp ▸ hp') a ha)
      · rw [if_neg hx] at hp
        rcases List.mem_cons.1 hp with rfl | hp'
        · rcases List.mem_cons.1 ha with rfl | ha'
          · exact List.mem_cons_self a xs
          · exact List.mem_cons_of_mem x (ih h (hsp ▸ List.mem_cons_self h t) a ha')
        · exact List.mem_cons_of_mem x (ih p (hsp ▸ List.mem_cons_of_mem h hp') a ha)

/-- Splitting on an absent separator yields the whole string as the only
piece. -/
theorem splitOnChar_of_not_mem (c : Char) (l : List Char) (h : c ∉ l) :
    splitOnChar c l = [l] := by
  induction l with
  | nil => rfl
  | cons x xs ih =>
    have hx : ¬(x = c) := fun hh => h (hh ▸ List.mem_cons_self x xs)
    have hxs : c ∉ xs := fun hh => h (List.mem_cons_of_mem x hh)
    unfold splitOnChar
    rw [ih hxs]
    simp [hx]

theorem slash_mem_of_s3_scheme (u : List Char) (h : "s3://".data.isPrefixOf u = true) :
    '/' ∈ u :=
  (List.isPrefixOf_iff_prefix.1 h).sublist.subset (by decide : '/' ∈ "s3://".data)

theorem mem_of_mem_stripExtOnce (f : List Char) (a : Char) (h : a ∈ stripExtOnce f) :
    a ∈ f := by
  unfold stripExtOnce at h
  by_cases hd : f.contains '.' = true
  · rw [if_pos hd] at h
    exact List.mem_reverse.1
      ((List.dropWhile_sublist _).subset ((List.drop_sublist 1 _).subset (List.mem_reverse.1 h)))
  · rwa [if_neg hd] at h

theorem mem_underscoreHyphenToSpace (l : List Char) (a : Char)
    (ha : a ∈ underscoreHyphenToSpace l) (hne : a ≠ ' ') : a ∈ l := by
  unfold underscoreHyphenToSpace at ha
  obtain ⟨b, hb, hfb⟩ := List.mem_map.1 ha
  by_cases h1 : b = '_'
  · rw [if_pos h1] at hfb
    exact absurd hfb.symm hne
  by_cases h2 : b = '-'
  · rw [if_neg h1, if_pos h2] at hfb
    exact absurd hfb.symm hne
  · rw [if_neg h1, if_neg h2] at hfb
    exact hfb ▸ hb

/-- A non-empty label containing no path separator is a fixed point of the
formatter: it cannot carry the `s3://` scheme, an `http` prefix leaves it
with a single split piece, and the path branches do not fire. -/
theorem format_fix_of_no_sep (t : List Char) (hne : t ≠ [])
    (hs : '/' ∉ t) (hb : '\\' ∉ t) : format_source_uri t = t := by
  unfold format_source_uri
  rw [if_neg hne]
  have hs3 : ¬("s3://".data.isPrefixOf t = true) := fun h => hs (slash_mem_of_s3_scheme t h)
  rw [if_neg hs3]
  by_cases hh : "http".data.isPrefixOf t = true
  · rw [if_pos hh, splitOnChar_of_not_mem '/' t hs]
    rw [if_neg (by simp)]
  · rw [if_neg hh]
    have hcont : (t.contains '/' || t.contains '\\') = false := by
      rw [contains_eq_decide_mem, contains_eq_decide_mem]
      simp [hs, hb]
    rw [if_neg (by rw [hcont]; exact Bool.false_ne_true)]

/-- C10 (amended): `format_source_uri` is idempotent at every input whose
formatted output is non-empty and backslash-free; the output never
contains `/`, so no scheme or path branch can fire a second time, and an
`http`-prefixed label without `/` splits into a single piece and is
returned unchanged.  (The exceptions are real: `format_source_uri
"http://" = ""` re-formats to `"Unknown source"`, and a backslash
surviving into an S3 filename triggers the local-path branch on the
second pass; see `C10_counterexample`.) -/
theorem C10_format_idempotent_amended (u : List Char)
    (hne : format_source_uri u ≠ [])
    (hnb : '\\' ∉ format_source_uri u) :
    format_source_uri (format_source_uri u) = format_source_uri u := by
  by_cases h0 : u = []
  · subst h0
    decide
  by_cases h1 : "s3://".data.isPrefixOf u = true
  · by_cases hlen : (splitOnChar '/' u).length > 3
    · have ht : format_source_uri u
          = underscoreHyphenToSpace (stripExtOnce ((splitOnChar '/' u).getLastD [])) := by
        unfold format_source_uri
        rw [if_neg h0, if_pos h1, if_pos hlen]
      have hslash : '/' ∉ format_source_uri u := by
        rw [ht]
        intro hmem
        exact not_mem_of_mem_splitOnChar '/' u _
          (getLastD_mem' _ _ (splitOnChar_ne_nil '/' u))
          (mem_of_mem_stripExtOnce _ _ (mem_underscoreHyphenToSpace _ _ hmem (by decide)))
      exact format_fix_of_no_sep _ hne hslash hnb
    · by_cases hemp : (splitOnChar '/' u).getLastD [] = []
      · have ht : format_source_uri u = "S3 Document".data := by
          unfold format_source_uri
          rw [if_neg h0, if_pos h1, if_neg hlen, if_pos hemp]
        rw [ht]
        decide
      · have ht : format_source_uri u = (splitOnChar '/' u).getLastD [] := by
          unfold format_source_uri
          rw [if_neg h0, if_pos h1, if_neg hlen, if_neg hemp]
        have hslash : '/' ∉ format_source_uri u := by
          rw [ht]
          exact not_mem_of_mem_splitOnChar '/' u _
            (getLastD_mem' _ _ (splitOnChar_ne_nil '/' u))
        exact format_fix_of_no_sep _ hne hslash hnb
  by_cases h2 : "http".data.isPrefixOf u = true
  · by_cases hlen : (splitOnChar '/' u).length > 2
    · by_cases hemp : (splitOnChar '/' u).getLastD [] = []
      · have ht : format_source_uri u = (splitOnChar '/' u).getD 2 [] := by
          unfold format_source_uri
          rw [if_neg h0, if_neg h1, if_pos h2, if_pos hlen, if_pos hemp]
        have hslash : '/' ∉ format_source_uri u := by
          rw [ht]
          exact not_mem_of_mem_splitOnChar '/' u _ (getD_mem' _ _ 2 (by omega))
        exact format_fix_of_no_sep _ hne hslash hnb
      · have ht : format_source_uri u = (splitOnChar '/' u).getLastD [] := by
          unfold format_source_uri
          rw [if_neg h0, if_neg h1, if_pos h2, if_pos hlen, if_neg hemp]
        have hslash : '/' ∉ format_source_uri u := by
          rw [ht]
          exact not_mem_of_mem_splitOnChar '/' u _
            (getLastD_mem' _ _ (splitOnChar_ne_nil '/' u))
        exact format_fix_of_no_sep _ hne hslash hnb
    · have ht : format_source_uri u = u := by
        unfold format_source_uri
        rw [if_neg h0, if_neg h1, if_pos h2, if_neg hlen]
      rw [ht]
      exact ht
  by_cases h3 : (u.contains '/' || u.contains '\\') = true
  · have ht : format_source_uri u = underscoreHyphenToSpace (stripExtOnce
        (if u.contains '/' then (splitOnChar '/' u).getLastD []
         else (splitOnChar '\\' u).getLastD [])) := by
      unfold format_source_uri
      rw [if_neg h0, if_neg h1, if_neg h2, if_pos h3]
    have hslash : '/' ∉ format_source_uri u := by
      rw [ht]
      intro hmem
      have hm2 := mem_of_mem_stripExtOnce _ _ (mem_underscoreHyphenToSpace _ _ hmem (by decide))
      by_cases hcs : u.contains '/' = true
      · rw [if_pos hcs] at hm2
        exact not_mem_of_mem_splitOnChar '/' u _
          (getLastD_mem' _ _ (splitOnChar_ne_nil '/' u)) hm2
      · rw [if_neg hcs] at hm2
        have hmu : '/' ∈ u := mem_of_mem_splitOnChar '\\' u _
          (getLastD_mem' _ _ (splitOnChar_ne_nil '\\' u)) '/' hm2
        exact hcs (by rw [contains_eq_decide_mem]; simpa using hmu)
    exact format_fix_of_no_sep _ hne hslash hnb
  · have ht : format_source_uri u = u := by
      unfold format_source_uri
      rw [if_neg h0, if_neg h1, if_neg h2, if_neg h3]
    rw [ht]
    exact ht

/-- Concrete instantiation of `C10_format_idempotent_amended` at an S3
locator. -/
theorem C10_format_idempotent_amended_witness :
    (format_source_uri "s3://bucket/docs/Program_3.md".data ≠ []
      ∧ '\\' ∉ format_source_uri "s3://bucket/docs/Program_3.md".data)
    ∧ format_source_uri (format_source_uri "s3://bucket/docs/Program_3.md".data)
      = format_source_uri "s3://bucket/docs/Program_3.md".data :=
  ⟨⟨by decide, by decide⟩,
   C10_format_idempotent_amended "s3://bucket/docs/Program_3.md".data (by decide) (by decide)⟩

/-- C10 as stated is false: `format_source_uri "http://"` is the empty
string (its split has three pieces, all empty, and the `parts[2]`
fallback is empty), and re-formatting the empty string yields
`"Unknown source"`, not the empty string. -/
theorem C10_counterexample :
    format_source_uri (format_source_uri "http://".data)
      ≠ format_source_uri "http://".data := by
  decide
